import Mathlib

/-!
Verification development for the gmail_cli repository (Rust).

The compiled program consists of src/main.rs (which declares only
`mod gmail_api`) together with src/gmail_api.rs; src/app.rs,
src/terminal_ui.rs and src/ui.rs are superseded revisions of the same
modules that are not part of the compiled crate but are cited by several
claims, so their handlers are embedded here as well.

External collaborators (the base64 crate's STANDARD engine, Rust's
String::from_utf8, the html2text renderer `from_read` and pulldown-cmark's
`push_html`) are embedded as follows: base64 and UTF-8 are well-specified
and are implemented faithfully; the two text renderers are opaque string
transformers and every definition that calls them is parameterised by the
two functions `fr` (for html2text::from_read at width 80) and `ph`
(for pulldown_cmark html::push_html).
-/

namespace GmailCli

/-! ## String helpers modelling Rust `str` operations (on `List Char`) -/

/-- Models Rust `str::split(sep)`: splits on every occurrence of `sep`,
keeping empty segments; the empty string yields one empty segment. -/
def splitOnChar (sep : Char) (l : List Char) : List (List Char) :=
  l.foldr
    (fun c acc =>
      match acc with
      | [] => [[c]]
      | a :: rest => if c = sep then [] :: a :: rest else (c :: a) :: rest)
    [[]]

/-- Models Rust `str::starts_with` for string patterns. -/
def strStartsWith (s pre : String) : Bool :=
  List.isPrefixOf pre.toList s.toList

/-- Models Rust `str::ends_with` for string patterns. -/
def strEndsWith (s suf : String) : Bool :=
  List.isSuffixOf suf.toList s.toList

/-- Whether `pat` occurs as a contiguous run inside `l`. -/
def listContainsRun (pat : List Char) : List Char → Bool
  | [] => List.isPrefixOf pat []
  | c :: rest => List.isPrefixOf pat (c :: rest) || listContainsRun pat rest

/-- Models Rust `str::contains` for string patterns. -/
def strContainsSub (s pat : String) : Bool :=
  listContainsRun pat.toList s.toList

/-- Models Rust `str::trim` (leading and trailing whitespace removed). -/
def trimStr (s : String) : String :=
  String.mk (((s.toList.dropWhile Char.isWhitespace).reverse.dropWhile
    Char.isWhitespace).reverse)

/-- Models Rust `str::lines().count()`: `\n`-separated segments, a trailing
newline not opening a final empty line, the empty string having no lines
(inputs here contain no lone `\r`, so `\r\n` handling does not change the
count). -/
def lineCount (s : String) : Nat :=
  if s.toList = [] then 0
  else
    (splitOnChar '\n' s.toList).length -
      (if strEndsWith s (String.mk ['\n']) then 1 else 0)

/-! ## base64 (models the base64 crate's `general_purpose::STANDARD` engine:
standard alphabet, canonical padding required on decode, trailing bits
must be zero) -/

/-- Value of a standard-alphabet base64 symbol, `none` for any other
character (including `=`). -/
def b64CharVal (c : Char) : Option Nat :=
  if 65 ≤ c.toNat ∧ c.toNat ≤ 90 then some (c.toNat - 65)
  else if 97 ≤ c.toNat ∧ c.toNat ≤ 122 then some (c.toNat - 97 + 26)
  else if 48 ≤ c.toNat ∧ c.toNat ≤ 57 then some (c.toNat - 48 + 52)
  else if c.toNat = 43 then some 62
  else if c.toNat = 47 then some 63
  else none

/-- Standard-alphabet base64 symbol for a 6-bit value. -/
def b64Char (v : Nat) : Char :=
  if v ≤ 25 then Char.ofNat (v + 65)
  else if v ≤ 51 then Char.ofNat (v - 26 + 97)
  else if v ≤ 61 then Char.ofNat (v - 52 + 48)
  else if v = 62 then '+'
  else '/'

/-- Standard base64 decoding over characters, as the base64 crate's
STANDARD engine performs it: input length must be a multiple of four,
padding is required and canonical (only in the final block, `=` or `==`),
and the unused trailing bits of the final symbol must be zero. Bytes are
returned as natural numbers below 256. -/
def base64DecodeChars : List Char → Option (List Nat)
  | [] => some []
  | a :: b :: c :: d :: rest =>
    match b64CharVal a, b64CharVal b with
    | some va, some vb =>
      if c = '=' then
        if d = '=' ∧ rest = [] ∧ vb % 16 = 0 then
          some [va * 4 + vb / 16]
        else none
      else
        match b64CharVal c with
        | some vc =>
          if d = '=' then
            if rest = [] ∧ vc % 4 = 0 then
              some [va * 4 + vb / 16, (vb % 16) * 16 + vc / 4]
            else none
          else
            match b64CharVal d with
            | some vd =>
              (base64DecodeChars rest).map
                (fun bs =>
                  (va * 4 + vb / 16) :: ((vb % 16) * 16 + vc / 4) ::
                    ((vc % 4) * 64 + vd) :: bs)
            | none => none
        | none => none
    | _, _ => none
  | _ => none

/-- Standard base64 encoding (canonical padding) of a byte list. -/
def base64EncodeBytes : List Nat → List Char
  | [] => []
  | [x] => [b64Char (x / 4), b64Char ((x % 4) * 16), '=', '=']
  | [x, y] =>
    [b64Char (x / 4), b64Char ((x % 4) * 16 + y / 16),
      b64Char ((y % 16) * 4), '=']
  | x :: y :: z :: rest =>
    b64Char (x / 4) :: b64Char ((x % 4) * 16 + y / 16) ::
      b64Char ((y % 16) * 4 + z / 64) :: b64Char (z % 64) ::
        base64EncodeBytes rest

/-- Models Rust `str::replace(from, to)` for one-character patterns. -/
def rustReplaceChar (from_ to_ : Char) (l : List Char) : List Char :=
  l.map (fun c => if c = from_ then to_ else c)

/-- The URL-safe-to-standard translation followed by STANDARD decoding, as
performed by `decode_and_render_body` in src/gmail_api.rs:
`encoded_body.replace('-', "+").replace('_', "/")` then
`general_purpose::STANDARD.decode(..)`. -/
def decodeUrlSafe (s : String) : Option (List Nat) :=
  base64DecodeChars (rustReplaceChar '_' '/' (rustReplaceChar '-' '+' s.toList))

/-! ## UTF-8 decoding (models Rust `String::from_utf8`: strict validation,
rejecting overlong forms, surrogates and code points above U+10FFFF) -/

/-- Decode a UTF-8 byte list into characters; `none` on any invalid
sequence, as Rust `String::from_utf8` errors there. -/
def utf8DecodeAux : List Nat → Option (List Char)
  | [] => some []
  | b :: rest =>
    if b < 0x80 then
      (utf8DecodeAux rest).map (fun cs => Char.ofNat b :: cs)
    else if b < 0xC2 then none
    else if b < 0xE0 then
      match rest with
      | b1 :: rest' =>
        if 0x80 ≤ b1 ∧ b1 < 0xC0 then
          (utf8DecodeAux rest').map
            (fun cs => Char.ofNat ((b - 0xC0) * 64 + (b1 - 0x80)) :: cs)
        else none
      | [] => none
    else if b < 0xF0 then
      match rest with
      | b1 :: b2 :: rest' =>
        if 0x80 ≤ b1 ∧ b1 < 0xC0 ∧ 0x80 ≤ b2 ∧ b2 < 0xC0 then
          let cp := (b - 0xE0) * 4096 + (b1 - 0x80) * 64 + (b2 - 0x80)
          if cp < 0x800 ∨ (0xD800 ≤ cp ∧ cp ≤ 0xDFFF) then none
          else (utf8DecodeAux rest').map (fun cs => Char.ofNat cp :: cs)
        else none
      | _ => none
    else if b < 0xF5 then
      match rest with
      | b1 :: b2 :: b3 :: rest' =>
        if 0x80 ≤ b1 ∧ b1 < 0xC0 ∧ 0x80 ≤ b2 ∧ b2 < 0xC0 ∧
            0x80 ≤ b3 ∧ b3 < 0xC0 then
          let cp := (b - 0xF0) * 262144 + (b1 - 0x80) * 4096 +
            (b2 - 0x80) * 64 + (b3 - 0x80)
          if cp < 0x10000 ∨ 0x10FFFF < cp then none
          else (utf8DecodeAux rest') |>.map (fun cs => Char.ofNat cp :: cs)
        else none
      | _ => none
    else none

/-- Models Rust `String::from_utf8` collapsed through the `.map_err` of the
caller: `none` stands for the error case. -/
def utf8DecodeString (bs : List Nat) : Option String :=
  (utf8DecodeAux bs).map String.mk

/-! ## Data model from src/gmail_api.rs -/

/-- A message header, `struct Header` in src/gmail_api.rs. -/
structure Header where
  name : String
  value : String
deriving Repr, DecidableEq

/-- A payload body, `struct Body` in src/gmail_api.rs. -/
structure MsgBody where
  data : Option String
  size : Option Int
deriving Repr, DecidableEq

/-- A payload part, `struct Part` in src/gmail_api.rs: a media-type string,
a body, and optional child parts. -/
inductive Part : Type where
  | mk (mimeType : String) (body : MsgBody) (parts : Option (List Part))
deriving Repr

/-- The top-level payload, `struct Payload` in src/gmail_api.rs. -/
structure Payload where
  headers : List Header
  parts : Option (List Part)
  body : MsgBody
  mimeType : Option String

/-- A normalized email, `struct Email` in src/gmail_api.rs. -/
structure Email where
  id : String
  subject : String
  body : String
  unsubscribe_link : Option String
deriving Repr, DecidableEq

/-! ## GmailClient message processing (src/gmail_api.rs)

All functions below that decode and render content are parameterised by
`fr` (html2text::from_read at width 80) and `ph`
(pulldown_cmark html::push_html), the two external renderers. -/

/-- The sentinel returned when no readable content is found. -/
def sentinel : String := "No readable content found in the email."

/-- Embeds `GmailClient::decode_and_render_body` (src/gmail_api.rs:198-214):
translate the URL-safe alphabet, STANDARD-base64-decode, UTF-8-decode,
then render as HTML if the text contains an escaped entity and as
Markdown-via-HTML otherwise. `none` collapses the `Result` error case as
the caller's `.ok()` does. -/
def decode_and_render_body (fr ph : String → String) (encoded : String) :
    Option String :=
  match decodeUrlSafe encoded with
  | none => none
  | some bytes =>
    match utf8DecodeString bytes with
    | none => none
    | some body =>
      if strContainsSub body "&lt;" || strContainsSub body "&gt;" ||
          strContainsSub body "&amp;" then
        some (fr body)
      else
        some (fr (ph body))

/-- Embeds `GmailClient::get_content_from_body` (src/gmail_api.rs:156-158). -/
def get_content_from_body (fr ph : String → String) (b : MsgBody) :
    Option String :=
  match b.data with
  | none => none
  | some d => decode_and_render_body fr ph d

/-- The loop of `GmailClient::get_content_from_parts`
(src/gmail_api.rs:160-196) with the two accumulators threaded explicitly:
`tp` accumulates rendered `text/plain` content and `th` accumulates
rendered `text/html` content; a part of any other media type with child
parts triggers a recursive call whose result is returned immediately when
non-empty. The Rust `if let Some(content) { accumulator.push_str(&content) }`
updates are embedded as appending `(..).getD ""`, which appends nothing in
the `None` case, and the part's optional child list is matched in the
top-level pattern (the two media-type arms never inspect it). -/
def get_content_from_parts_aux (fr ph : String → String) :
    List Part → String → String → String
  | [], tp, th =>
    if th ≠ "" then fr th
    else if tp ≠ "" then tp
    else sentinel
  | Part.mk mime body (some subparts) :: rest, tp, th =>
    if mime = "text/plain" then
      get_content_from_parts_aux fr ph rest
        (tp ++ (get_content_from_body fr ph body).getD "") th
    else if mime = "text/html" then
      get_content_from_parts_aux fr ph rest tp
        (th ++ (get_content_from_body fr ph body).getD "")
    else
      let c := get_content_from_parts_aux fr ph subparts "" ""
      if c ≠ "" then c else get_content_from_parts_aux fr ph rest tp th
  | Part.mk mime body none :: rest, tp, th =>
    if mime = "text/plain" then
      get_content_from_parts_aux fr ph rest
        (tp ++ (get_content_from_body fr ph body).getD "") th
    else if mime = "text/html" then
      get_content_from_parts_aux fr ph rest tp
        (th ++ (get_content_from_body fr ph body).getD "")
    else
      get_content_from_parts_aux fr ph rest tp th
termination_by parts _ _ => sizeOf parts

/-- Embeds `GmailClient::get_content_from_parts` (src/gmail_api.rs:160-196),
entered with both accumulators empty. (Its `Result` never carries an
error: the only `?` is on the recursive call.) -/
def get_content_from_parts (fr ph : String → String) (parts : List Part) :
    String :=
  get_content_from_parts_aux fr ph parts "" ""

/-- Embeds `GmailClient::extract_body` (src/gmail_api.rs:142-154). -/
def extract_body (fr ph : String → String) (p : Payload) : String :=
  match get_content_from_body fr ph p.body with
  | some content => content
  | none =>
    match p.parts with
    | some parts => get_content_from_parts fr ph parts
    | none => sentinel

/-- Embeds `GmailClient::extract_unsubscribe_link` (src/gmail_api.rs:117-140):
find the first `List-Unsubscribe` header, split its value on commas,
keep the trimmed parts that start with `<` and end with `>` (brackets
stripped), then pick the first candidate starting with `http`, falling
back to the first candidate; `none` when the header is absent or no
bracket-delimited candidate exists. -/
def extract_unsubscribe_link (headers : List Header) : Option String :=
  match headers.find? (fun h => h.name = "List-Unsubscribe") with
  | none => none
  | some h =>
    let urls : List String :=
      ((splitOnChar ',' h.value.toList).map String.mk).filterMap
        (fun part =>
          let t := trimStr part
          if strStartsWith t "<" && strEndsWith t ">" then
            some (String.mk (t.toList.drop 1).dropLast)
          else none)
    match urls.find? (fun u => strStartsWith u "http") with
    | some u => some u
    | none => urls.head?

/-- The bracket-delimited candidate list that `extract_unsubscribe_link`
builds from a List-Unsubscribe header value (the `urls` local of
src/gmail_api.rs:122-132): comma-split, trimmed, kept when `<...>`
delimited, brackets stripped. -/
def url_candidates (v : String) : List String :=
  ((splitOnChar ',' v.toList).map String.mk).filterMap
    (fun part =>
      let t := trimStr part
      if strStartsWith t "<" && strEndsWith t ">" then
        some (String.mk (t.toList.drop 1).dropLast)
      else none)

/-! ## Remote mark-as-read (src/gmail_api.rs:216-229) -/

/-- Outcome of the HTTP POST to the modify endpoint: either the transport
fails (connection error, the `?` on `.send()`), or a response arrives
carrying some status code. -/
inductive HttpOutcome : Type where
  | transportError (e : String)
  | response (status : Nat)
deriving Repr, DecidableEq

/-- Embeds `GmailClient::mark_as_read` (src/gmail_api.rs:216-229): the `?` on
`.send()` propagates a transport error; any arrived response — its status
code and body never inspected — yields `Ok(())`. -/
def gmail_mark_as_read (outcome : HttpOutcome) : Except String Unit :=
  match outcome with
  | .transportError e => .error e
  | .response _ => .ok ()

/-! ## App state and operations (src/app.rs, identical in src/main.rs) -/

/-- Embeds the store part of `struct App`: the message list and the selection cursor. -/
structure AppState where
  emails : List Email
  current_index : Nat
deriving Repr, DecidableEq

/-- Embeds `App::mark_as_read` (src/app.rs:41-54): when a message exists at the
current index, perform the remote call (outcome given by `remote` at that
message's id); a remote error propagates with the store untouched; on
success remove the message at the current index and clamp the index to the
new length. When no message is selected, do nothing and return `Ok`.
(`Vec::remove` is guarded by the `get`, so `List.eraseIdx` is in-bounds.) -/
def app_mark_as_read (s : AppState) (remote : String → Except String Unit) :
    AppState × Except String Unit :=
  match s.emails[s.current_index]? with
  | none => (s, .ok ())
  | some email =>
    match remote email.id with
    | .error e => (s, .error e)
    | .ok _ =>
      let emails' := s.emails.eraseIdx s.current_index
      let index' :=
        if emails'.length ≤ s.current_index then emails'.length - 1
        else s.current_index
      ({ emails := emails', current_index := index' }, .ok ())

/-- The classification `App::unsubscribe` (src/app.rs:56-90) applies to the
selected message's stored unsubscribe link. -/
inductive UnsubscribeAction : Type where
  | openLink (url : String)
  | mailtoMessage (address : String)
  | unsupportedMessage (link : String)
  | noLink
deriving Repr, DecidableEq

/-- The link classification of `App::unsubscribe` (src/app.rs:58-83):
`http` prefix delegates to the link opener, `mailto:` prefix produces the
instructional message with the prefix's seven bytes stripped, anything
else is unsupported; an absent link reports that none was found. -/
def classify_unsubscribe (link : Option String) : UnsubscribeAction :=
  match link with
  | none => .noLink
  | some l =>
    if strStartsWith l "http" then .openLink l
    else if strStartsWith l "mailto:" then
      .mailtoMessage (String.mk (l.toList.drop 7))
    else .unsupportedMessage l

/-! ## UI handlers (src/terminal_ui.rs and the live loop in src/main.rs) -/

/-- Embeds `TerminalUI::handle_up` (src/terminal_ui.rs:223-229), the store part;
identical to the `KeyCode::Up` arm of the live loop in src/main.rs. -/
def handle_up (s : AppState) : AppState :=
  if s.current_index > 0 then
    { s with current_index := s.current_index - 1 }
  else s

/-- Embeds `TerminalUI::handle_down` (src/terminal_ui.rs:231-237), the store
part; identical to the `KeyCode::Down` arm in src/main.rs.
(`saturating_sub(1)` is Nat subtraction.) -/
def handle_down (s : AppState) : AppState :=
  if s.current_index < s.emails.length - 1 then
    { s with current_index := s.current_index + 1 }
  else s

/-- Embeds `TerminalUI::handle_mark_as_read` (src/terminal_ui.rs:239-245), also
the `KeyCode::Char('r')` arm in src/main.rs: run `App::mark_as_read` and
set the status message from its outcome
(`format!("Error marking email as read: {}", e)` on failure). -/
def handle_mark_as_read (s : AppState)
    (remote : String → Except String Unit) : AppState × String :=
  match app_mark_as_read s remote with
  | (s', .ok _) => (s', "Email marked as read.")
  | (s', .error e) => (s', "Error marking email as read: " ++ e)

/-- The `KeyCode::PageUp` arm of the live loop (src/main.rs:308-312):
`if scroll_offset > 0 { scroll_offset = scroll_offset.saturating_sub(10) }`. -/
def main_page_up (off : Nat) : Nat :=
  if off > 0 then off - 10 else off

/-- The `KeyCode::PageDown` arm of the live loop (src/main.rs:313-315):
`scroll_offset += 10`, with no cap. -/
def main_page_down (off : Nat) : Nat :=
  off + 10

/-- Embeds `TerminalUI::handle_page_down` of the superseded revisions
(src/terminal_ui.rs:259-267, src/ui.rs): with a selected message of
`contentHeight` body lines and `visibleHeight` visible lines,
`scroll_offset = min(scroll_offset + 10, content_height.saturating_sub(visible_height))`. -/
def tui_page_down (off contentHeight visibleHeight : Nat) : Nat :=
  min (off + 10) (contentHeight - visibleHeight)

/-- The store invariant of the spec: the cursor is in range whenever the
store is non-empty, and conventionally 0 when the store is empty. -/
def store_inv (s : AppState) : Prop :=
  (s.emails = [] → s.current_index = 0) ∧
  (s.emails ≠ [] → s.current_index < s.emails.length)

/-! ## Theorems -/

/-- Searching a list whose prefix all fails the predicate finds the first
succeeding element. -/
theorem find?_first_match (p : String → Bool) :
    ∀ (pre : List String) (u : String) (post : List String),
      (∀ w ∈ pre, p w = false) → p u = true →
      (pre ++ u :: post).find? p = some u
  | [], u, post, _, hu => by simp [List.find?, hu]
  | w :: pre, u, post, hpre, hu => by
    have hw := hpre w (by simp)
    rw [List.cons_append, List.find?_cons, hw]
    exact find?_first_match p pre u post (fun x hx => hpre x (by simp [hx])) hu

/-- C6: For every List-Unsubscribe header value with bracket-delimited
candidates, the first candidate beginning with "http" is chosen over any
earlier non-http candidate (whenever the candidate list splits as
`pre ++ u :: post` with nothing in `pre` starting with "http" and `u`
starting with "http", the extractor returns `u`), and when no candidate
begins with "http" the first bracket-delimited candidate is chosen; in
particular the header value `<mailto:x@y.com>, <https://y.com/unsub>`
yields the HTTP link `https://y.com/unsub` (classified as a link to open),
and `<mailto:x@y.com>` alone yields the mailto target with address
`x@y.com`, the `mailto:` prefix stripped. -/
theorem unsubscribe_http_preference :
    (∀ (v u : String) (pre post : List String),
      url_candidates v = pre ++ u :: post →
      (∀ w ∈ pre, strStartsWith w "http" = false) →
      strStartsWith u "http" = true →
      extract_unsubscribe_link [⟨"List-Unsubscribe", v⟩] = some u) ∧
    (∀ (v u : String) (rest : List String),
      url_candidates v = u :: rest →
      (∀ w ∈ u :: rest, strStartsWith w "http" = false) →
      extract_unsubscribe_link [⟨"List-Unsubscribe", v⟩] = some u) ∧
    extract_unsubscribe_link
        [⟨"List-Unsubscribe", "<mailto:x@y.com>, <https://y.com/unsub>"⟩]
      = some "https://y.com/unsub" ∧
    classify_unsubscribe (some "https://y.com/unsub")
      = .openLink "https://y.com/unsub" ∧
    extract_unsubscribe_link [⟨"List-Unsubscribe", "<mailto:x@y.com>"⟩]
      = some "mailto:x@y.com" ∧
    classify_unsubscribe (some "mailto:x@y.com")
      = .mailtoMessage "x@y.com" := by
  have hlink : ∀ v : String,
      extract_unsubscribe_link [⟨"List-Unsubscribe", v⟩]
        = match (url_candidates v).find? (fun u => strStartsWith u "http")
            with
          | some w => some w
          | none => (url_candidates v).head? := fun v => rfl
  refine ⟨?_, ?_, rfl, rfl, rfl, rfl⟩
  · intro v u pre post hsplit hpre hu
    rw [hlink v, hsplit, find?_first_match _ pre u post hpre hu]
  · intro v u rest hsplit hall
    have hnone : (u :: rest).find? (fun w => strStartsWith w "http")
        = none := by
      rw [List.find?_eq_none]
      intro x hx
      simp [hall x hx]
    rw [hlink v, hsplit, hnone]
    rfl

/-- C6 witness: the claim's two header values, with their candidate lists
split concretely so both universal conjuncts apply: on
`<mailto:x@y.com>, <https://y.com/unsub>` the earlier mailto candidate
fails the http test and the http candidate is returned; on
`<mailto:x@y.com>` alone no candidate passes and the first is returned. -/
theorem unsubscribe_http_preference_witness :
    url_candidates "<mailto:x@y.com>, <https://y.com/unsub>"
      = ["mailto:x@y.com"] ++ "https://y.com/unsub" :: [] ∧
    (∀ w ∈ ["mailto:x@y.com"], strStartsWith w "http" = false) ∧
    strStartsWith "https://y.com/unsub" "http" = true ∧
    extract_unsubscribe_link
        [⟨"List-Unsubscribe", "<mailto:x@y.com>, <https://y.com/unsub>"⟩]
      = some "https://y.com/unsub" ∧
    url_candidates "<mailto:x@y.com>" = "mailto:x@y.com" :: [] ∧
    (∀ w ∈ "mailto:x@y.com" :: ([] : List String),
      strStartsWith w "http" = false) ∧
    extract_unsubscribe_link [⟨"List-Unsubscribe", "<mailto:x@y.com>"⟩]
      = some "mailto:x@y.com" :=
  ⟨by decide, by decide, by decide,
    unsubscribe_http_preference.1 "<mailto:x@y.com>, <https://y.com/unsub>"
      "https://y.com/unsub" ["mailto:x@y.com"] [] (by decide) (by decide)
      (by decide),
    by decide, by decide,
    unsubscribe_http_preference.2.1 "<mailto:x@y.com>" "mailto:x@y.com" []
      (by decide) (by decide)⟩

/-- C5 counterexample: on the bare header value `https://y.com/u` — no
bracket-delimited candidate at all — the extractor returns no target
(there is no fall-back to the raw header value), and the selected
message's unsubscribe handling consequently reports that no link was
found; the claim's predicted `HttpLink("https://y.com/u")` is not
produced. -/
theorem bare_unsubscribe_yields_none :
    extract_unsubscribe_link [⟨"List-Unsubscribe", "https://y.com/u"⟩]
        = none ∧
    classify_unsubscribe
        (extract_unsubscribe_link
          [⟨"List-Unsubscribe", "https://y.com/u"⟩]) = .noLink ∧
    UnsubscribeAction.noLink ≠ .openLink "https://y.com/u" :=
  ⟨rfl, rfl, by decide⟩

/-- C5 amended: when no comma-separated part of the List-Unsubscribe value
trims to a bracket-delimited (`<...>`) candidate, the extractor returns
`none` — the entire raw header value is never used as a bare fallback — so
the bare input `https://y.com/u` yields no unsubscribe target. -/
theorem no_bracket_candidates_yields_none (v : String)
    (h : ∀ part ∈ (splitOnChar ',' v.toList).map String.mk,
      (strStartsWith (trimStr part) "<" && strEndsWith (trimStr part) ">")
        = false) :
    extract_unsubscribe_link [⟨"List-Unsubscribe", v⟩] = none := by
  unfold extract_unsubscribe_link
  have hfind : List.find? (fun h => h.name = "List-Unsubscribe")
      [Header.mk "List-Unsubscribe" v] = some ⟨"List-Unsubscribe", v⟩ := by
    simp [List.find?]
  rw [hfind]
  have hnil : ((splitOnChar ',' v.toList).map String.mk).filterMap
      (fun part =>
        if strStartsWith (trimStr part) "<" && strEndsWith (trimStr part) ">"
        then some (String.mk ((trimStr part).toList.drop 1).dropLast)
        else none) = [] := by
    rw [List.filterMap_eq_nil_iff]
    intro part hp
    rw [h part hp]
    simp
  simp only [hnil, List.find?_nil, List.head?_nil]

/-- C5 amended, witness at the bare input of the claim. -/
theorem no_bracket_candidates_yields_none_witness :
    (∀ part ∈ (splitOnChar ',' ("https://y.com/u" : String).toList).map
        String.mk,
      (strStartsWith (trimStr part) "<" && strEndsWith (trimStr part) ">")
        = false) ∧
    extract_unsubscribe_link [⟨"List-Unsubscribe", "https://y.com/u"⟩]
      = none :=
  ⟨by decide, no_bracket_candidates_yields_none "https://y.com/u" (by decide)⟩

/-- C9 counterexample: in the live loop of src/main.rs, a scroll-down on a
selected message whose body has one line, with any visible height, moves
the offset from 0 to 10, strictly past the claimed cap
`max 0 (lineCount body - visibleHeight) = 0`. -/
theorem scroll_down_uncapped :
    main_page_down 0 = 10 ∧ lineCount "hello" = 1 ∧
    ¬(main_page_down 0 ≤ max 0 (lineCount "hello" - 20)) := by decide

/-- C9 amended: in the live loop of src/main.rs, a scroll-up event
decreases the offset by the fixed step of 10 floored at 0, and a
scroll-down event increases it by 10 with no cap at all; the cap
`max 0 (lineCount - visibleHeight)` is enforced only by the superseded
handlers in src/terminal_ui.rs / src/ui.rs, whose scroll-down never
exceeds that cap nor the old offset plus 10. -/
theorem scroll_step_behavior :
    (∀ off, main_page_up off = off - 10) ∧
    (∀ off, main_page_down off = off + 10) ∧
    (∀ off ch vh, tui_page_down off ch vh ≤ max 0 (ch - vh) ∧
      tui_page_down off ch vh ≤ off + 10) := by
  refine ⟨fun off => ?_, fun off => rfl, fun off ch vh => ⟨?_, ?_⟩⟩
  · unfold main_page_up; split <;> omega
  · unfold tui_page_down; omega
  · unfold tui_page_down; omega

/-- C10: the remote mark-as-read call returns success for any arrived
response whatever its status code — the response is never inspected — so
when the modify endpoint answers with a non-2xx rejection the mark-read
transition still reports success and removes the selected message from
the local store. -/
theorem mark_read_ignores_response_status (status : Nat) (s : AppState)
    (h : s.current_index < s.emails.length) :
    gmail_mark_as_read (.response status) = .ok () ∧
    (app_mark_as_read s
        (fun _ => gmail_mark_as_read (.response status))).1.emails
      = s.emails.eraseIdx s.current_index ∧
    (app_mark_as_read s (fun _ => gmail_mark_as_read (.response status))).2
      = .ok () := by
  refine ⟨rfl, ?_, ?_⟩ <;>
    simp [app_mark_as_read, List.getElem?_eq_getElem h, gmail_mark_as_read]

/-- C10 witness: a store of two messages and a 403 rejection response. -/
theorem mark_read_ignores_response_status_witness :
    (0 : Nat) <
        (AppState.mk [⟨"id1", "s1", "b1", none⟩, ⟨"id2", "s2", "b2", none⟩]
          0).emails.length ∧
    gmail_mark_as_read (.response 403) = .ok () ∧
    (app_mark_as_read
        (AppState.mk [⟨"id1", "s1", "b1", none⟩, ⟨"id2", "s2", "b2", none⟩] 0)
        (fun _ => gmail_mark_as_read (.response 403))).1.emails
      = [⟨"id2", "s2", "b2", none⟩] ∧
    (app_mark_as_read
        (AppState.mk [⟨"id1", "s1", "b1", none⟩, ⟨"id2", "s2", "b2", none⟩] 0)
        (fun _ => gmail_mark_as_read (.response 403))).2 = .ok () := by
  have h := mark_read_ignores_response_status 403
    (AppState.mk [⟨"id1", "s1", "b1", none⟩, ⟨"id2", "s2", "b2", none⟩] 0)
    (by decide)
  exact ⟨by decide, h.1, h.2.1, h.2.2⟩

/-- Evaluation of the mark-read handler when no message is selected. -/
theorem handle_mark_none (s : AppState)
    (remote : String → Except String Unit)
    (hget : s.emails[s.current_index]? = none) :
    handle_mark_as_read s remote = (s, "Email marked as read.") := by
  unfold handle_mark_as_read app_mark_as_read
  rw [hget]

/-- Evaluation of the mark-read handler on a remote failure. -/
theorem handle_mark_err (s : AppState)
    (remote : String → Except String Unit) (email : Email) (e : String)
    (hget : s.emails[s.current_index]? = some email)
    (hrem : remote email.id = .error e) :
    handle_mark_as_read s remote
      = (s, "Error marking email as read: " ++ e) := by
  unfold handle_mark_as_read app_mark_as_read
  simp only [hget, hrem]

/-- Evaluation of the mark-read handler on a remote success. -/
theorem handle_mark_ok (s : AppState)
    (remote : String → Except String Unit) (email : Email)
    (hget : s.emails[s.current_index]? = some email)
    (hrem : remote email.id = .ok ()) :
    handle_mark_as_read s remote
      = ({ emails := s.emails.eraseIdx s.current_index,
           current_index :=
             if (s.emails.eraseIdx s.current_index).length ≤ s.current_index
             then (s.emails.eraseIdx s.current_index).length - 1
             else s.current_index }, "Email marked as read.") := by
  unfold handle_mark_as_read app_mark_as_read
  simp only [hget, hrem]

/-- C1: with a message selected, the mark-read event is atomic on local
state: when the remote call fails, the store (message list and selected
index) is returned unchanged and the status message reports the failure
with the error detail; when it succeeds, exactly the message at the
selected index is removed, the selection is re-clamped to the new length
(`min` of the old index and the last valid index, 0 on an emptied store),
and the success status is set. -/
theorem mark_read_atomic (s : AppState)
    (remote : String → Except String Unit)
    (h : s.current_index < s.emails.length) :
    (∀ e, remote (s.emails.get ⟨s.current_index, h⟩).id = .error e →
      handle_mark_as_read s remote
        = (s, "Error marking email as read: " ++ e)) ∧
    (remote (s.emails.get ⟨s.current_index, h⟩).id = .ok () →
      handle_mark_as_read s remote
        = ({ emails := s.emails.eraseIdx s.current_index,
             current_index :=
               min s.current_index
                 ((s.emails.eraseIdx s.current_index).length - 1) },
           "Email marked as read.")) := by
  constructor
  · intro e he
    rw [List.get_eq_getElem] at he
    exact handle_mark_err s remote _ e (List.getElem?_eq_getElem h) he
  · intro hok
    rw [List.get_eq_getElem] at hok
    rw [handle_mark_ok s remote _ (List.getElem?_eq_getElem h) hok]
    have hmin :
        (if (s.emails.eraseIdx s.current_index).length ≤ s.current_index
         then (s.emails.eraseIdx s.current_index).length - 1
         else s.current_index)
          = min s.current_index
              ((s.emails.eraseIdx s.current_index).length - 1) := by
      split <;> omega
    rw [hmin]

/-- C1 witness: two messages, selection at index 1; the failing remote
leaves the store untouched with the failure status, and (on a second
concrete store) the succeeding remote removes the selected message and
re-clamps the selection to 0. -/
theorem mark_read_atomic_witness :
    ((fun _ : String => (Except.error "boom" : Except String Unit))
        (([⟨"id1", "s1", "b1", none⟩,
           ⟨"id2", "s2", "b2", none⟩] : List Email).get ⟨1, by decide⟩).id
      = .error "boom") ∧
    handle_mark_as_read
        (AppState.mk [⟨"id1", "s1", "b1", none⟩, ⟨"id2", "s2", "b2", none⟩] 1)
        (fun _ => .error "boom")
      = (AppState.mk
          [⟨"id1", "s1", "b1", none⟩, ⟨"id2", "s2", "b2", none⟩] 1,
         "Error marking email as read: boom") ∧
    handle_mark_as_read
        (AppState.mk [⟨"id1", "s1", "b1", none⟩, ⟨"id2", "s2", "b2", none⟩] 1)
        (fun _ => .ok ())
      = (AppState.mk [⟨"id1", "s1", "b1", none⟩] 0,
         "Email marked as read.") := by
  refine ⟨rfl, ?_, ?_⟩
  · exact (mark_read_atomic
      (AppState.mk [⟨"id1", "s1", "b1", none⟩, ⟨"id2", "s2", "b2", none⟩] 1)
      (fun _ => .error "boom") (by decide)).1 "boom" rfl
  · exact (mark_read_atomic
      (AppState.mk [⟨"id1", "s1", "b1", none⟩, ⟨"id2", "s2", "b2", none⟩] 1)
      (fun _ => .ok ()) (by decide)).2 rfl

/-- C2: the store invariant — the selected index is within
`[0, len(messages))` whenever the store is non-empty and is 0 when it is
empty — is preserved by the navigation handlers and by the mark-read
transition under every remote outcome; moreover the navigation handlers
saturate at the bounds without wrapping: up at index 0 and down at the
last index are no-ops. -/
theorem store_ops_preserve_inv (s : AppState)
    (remote : String → Except String Unit) (hs : store_inv s) :
    store_inv (handle_up s) ∧ store_inv (handle_down s) ∧
    store_inv (handle_mark_as_read s remote).1 ∧
    (s.current_index = 0 → handle_up s = s) ∧
    (s.emails ≠ [] → s.current_index = s.emails.length - 1 →
      handle_down s = s) := by
  obtain ⟨hemp, hlt⟩ := hs
  refine ⟨?_, ?_, ?_, ?_, ?_⟩
  · unfold store_inv handle_up
    split <;>
      exact ⟨fun hne => by simp_all; try omega,
        fun hne => by simp_all; try omega⟩
  · unfold store_inv handle_down
    split <;>
      exact ⟨fun hne => by simp_all; try omega,
        fun hne => by simp_all; try omega⟩
  · cases hget : s.emails[s.current_index]? with
    | none =>
      rw [handle_mark_none s remote hget]
      exact ⟨hemp, hlt⟩
    | some email =>
      cases hrem : remote email.id with
      | error e =>
        rw [handle_mark_err s remote email e hget hrem]
        exact ⟨hemp, hlt⟩
      | ok u =>
        cases u
        rw [handle_mark_ok s remote email hget hrem]
        constructor
        · intro hne
          simp only at hne ⊢
          rw [hne]
          simp
        · intro hne
          simp only at hne ⊢
          have hpos : 0 < (s.emails.eraseIdx s.current_index).length :=
            List.length_pos.mpr hne
          split <;> omega
  · intro h0; unfold handle_up; rw [h0]; simp
  · intro hne hlast; unfold handle_down; rw [hlast]; simp

/-- C2 witness: a two-message store with the cursor on the last message
satisfies the invariant, and all conclusions hold there for a failing
remote. -/
theorem store_ops_preserve_inv_witness :
    store_inv
        (AppState.mk [⟨"id1", "s1", "b1", none⟩, ⟨"id2", "s2", "b2", none⟩]
          1) ∧
    store_inv (handle_up
        (AppState.mk [⟨"id1", "s1", "b1", none⟩, ⟨"id2", "s2", "b2", none⟩]
          1)) ∧
    handle_down
        (AppState.mk [⟨"id1", "s1", "b1", none⟩, ⟨"id2", "s2", "b2", none⟩]
          1)
      = AppState.mk [⟨"id1", "s1", "b1", none⟩, ⟨"id2", "s2", "b2", none⟩]
          1 := by
  have hinv : store_inv
      (AppState.mk [⟨"id1", "s1", "b1", none⟩, ⟨"id2", "s2", "b2", none⟩]
        1) := by
    constructor <;> intro h <;> simp_all
  have h := store_ops_preserve_inv
    (AppState.mk [⟨"id1", "s1", "b1", none⟩, ⟨"id2", "s2", "b2", none⟩] 1)
    (fun _ => .error "boom") hinv
  exact ⟨hinv, h.1, h.2.2.2.2 (by simp) (by decide)⟩

/-- Prepending the empty string is the identity on strings. -/
theorem string_nil_append (s : String) : "" ++ s = s := rfl

/-- With a renderer that never produces the empty string, the parts loop
never returns the empty string: every exit is a renderer output, an
accumulator the guarding condition shows non-empty, a recursive result the
guarding condition shows non-empty, or the sentinel. -/
theorem get_content_aux_ne_empty (fr ph : String → String)
    (hfr : ∀ t, fr t ≠ "") :
    ∀ (n : Nat) (parts : List Part), sizeOf parts ≤ n → ∀ tp th,
      get_content_from_parts_aux fr ph parts tp th ≠ "" := by
  intro n
  induction n with
  | zero =>
    intro parts hsz
    exfalso
    cases parts <;> simp at hsz
  | succ n ih =>
    intro parts hsz tp th
    match parts with
    | [] =>
      unfold get_content_from_parts_aux
      split
      · exact hfr th
      · split
        · assumption
        · intro hc
          exact absurd hc (by unfold sentinel; decide)
    | Part.mk mime body (some subparts) :: rest =>
      have hrest : sizeOf rest ≤ n := by
        have h1 := List.cons.sizeOf_spec (Part.mk mime body (some subparts))
          rest
        omega
      unfold get_content_from_parts_aux
      split
      · exact ih rest hrest _ _
      · split
        · exact ih rest hrest _ _
        · show (if get_content_from_parts_aux fr ph subparts "" "" ≠ ""
            then get_content_from_parts_aux fr ph subparts "" ""
            else get_content_from_parts_aux fr ph rest tp th) ≠ ""
          split
          · assumption
          · exact ih rest hrest tp th
    | Part.mk mime body none :: rest =>
      have hrest : sizeOf rest ≤ n := by
        have h1 := List.cons.sizeOf_spec (Part.mk mime body none) rest
        omega
      unfold get_content_from_parts_aux
      split
      · exact ih rest hrest _ _
      · split
        · exact ih rest hrest _ _
        · exact ih rest hrest tp th

/-- The payload of the C3 counterexample: a multipart child with an empty
parts list followed, at the same level, by a text/plain sibling whose
base64url data decodes to the one-byte content `A`. -/
def c3Payload : Payload :=
  ⟨[], some [Part.mk "multipart/mixed" ⟨none, none⟩ (some []),
    Part.mk "text/plain" ⟨some "QQ==", none⟩ none], ⟨none, none⟩,
    some "multipart/mixed"⟩

/-- C3 counterexample: on a payload whose first child is a multipart
container with no decodable content beneath it (an empty parts list) and
whose second child is a text/plain part with content `A`, the walker
returns the sentinel — the recursive call into the multipart child returns
the sentinel, which is non-empty, so it is returned immediately and the
textual sibling is never reached; the sentinel is thus returned before
scanning all children, contradicting the claim. -/
theorem multipart_shadows_sibling :
    extract_body id id c3Payload = sentinel ∧
    get_content_from_body id id (MsgBody.mk (some "QQ==") none)
      = some "A" ∧
    sentinel ≠ "A" := by
  refine ⟨?_, rfl, by unfold sentinel; decide⟩
  simp [extract_body, c3Payload, get_content_from_body,
    get_content_from_parts, get_content_from_parts_aux, sentinel]

/-- C3 amended: the recursive call into a multipart child (one whose
media type is neither text/plain nor text/html and that carries a parts
list) is returned immediately whether or not it found readable content,
because its result is never the empty string when the renderer never
returns one — the sentinel substitutes for missing content. Consequently
a content-less multipart container followed by a textual sibling yields
the sentinel, not the sibling's content, and the sentinel can be returned
without scanning all children at a level. -/
theorem multipart_recursion_short_circuits (fr ph : String → String)
    (hfr : ∀ t, fr t ≠ "") (mime : String) (body : MsgBody)
    (subparts rest : List Part) (tp th : String)
    (hm1 : mime ≠ "text/plain") (hm2 : mime ≠ "text/html") :
    get_content_from_parts_aux fr ph
        (Part.mk mime body (some subparts) :: rest) tp th
      = get_content_from_parts fr ph subparts ∧
    extract_body fr ph c3Payload = sentinel := by
  constructor
  · have hne := get_content_aux_ne_empty fr ph hfr (sizeOf subparts)
      subparts le_rfl "" ""
    unfold get_content_from_parts_aux
    rw [if_neg hm1, if_neg hm2]
    show (if get_content_from_parts_aux fr ph subparts "" "" ≠ ""
      then get_content_from_parts_aux fr ph subparts "" ""
      else get_content_from_parts_aux fr ph rest tp th)
        = get_content_from_parts fr ph subparts
    rw [if_pos hne]
    rfl
  · simp [extract_body, c3Payload, get_content_from_body,
      get_content_from_parts, get_content_from_parts_aux, sentinel]

/-- C3 amended, witness: a constant non-empty renderer, a multipart/mixed
part with one (empty) child list, and a concrete sibling list. -/
theorem multipart_recursion_short_circuits_witness :
    (∀ t, (fun _ : String => "X") t ≠ "") ∧
    get_content_from_parts_aux (fun _ => "X") id
        (Part.mk "multipart/mixed" (MsgBody.mk none none) (some []) ::
          [Part.mk "text/plain" (MsgBody.mk (some "QQ==") none) none])
        "" ""
      = get_content_from_parts (fun _ => "X") id [] ∧
    extract_body (fun _ => "X") id c3Payload = sentinel := by
  have hfr : ∀ t, (fun _ : String => "X") t ≠ "" := by
    intro t
    show ("X" : String) ≠ ""
    decide
  have h := multipart_recursion_short_circuits (fun _ => "X") id hfr
    "multipart/mixed" (MsgBody.mk none none) []
    [Part.mk "text/plain" (MsgBody.mk (some "QQ==") none) none] "" ""
    (by decide) (by decide)
  exact ⟨hfr, h.1, h.2⟩

/-- Any successful result of `decode_and_render_body` is an output of the
html2text renderer. -/
theorem decode_render_is_rendered (fr ph : String → String) (enc c : String)
    (h : decode_and_render_body fr ph enc = some c) : ∃ t, c = fr t := by
  unfold decode_and_render_body at h
  cases hdec : decodeUrlSafe enc with
  | none => simp [hdec] at h
  | some bytes =>
    simp only [hdec] at h
    cases hutf : utf8DecodeString bytes with
    | none => simp [hutf] at h
    | some body =>
      simp only [hutf] at h
      split at h
      · exact ⟨body, by injection h with h; exact h.symm⟩
      · exact ⟨ph body, by injection h with h; exact h.symm⟩

/-- The payload of the C4 counterexample: a single node whose inline body
data is the empty base64 string, which the decoder accepts as the empty
byte sequence. -/
def c4Payload : Payload := ⟨[], none, ⟨some "", none⟩, none⟩

/-- C4 counterexample: a payload tree whose (only) node carries inline
body data that decodes to the empty text renders — for a renderer that
maps the empty document to the empty string, as html2text and
pulldown-cmark do — to the empty string, which `extract_body` returns
verbatim: no sentinel is substituted on the main-body path, so the
resulting `renderedBody` is empty. -/
theorem extract_body_empty_on_empty_data :
    c4Payload.body.data = some "" ∧ extract_body id id c4Payload = "" :=
  ⟨rfl, rfl⟩

/-- C4 amended: provided the renderer never returns the empty string,
`extract_body` returns a non-empty string on every payload (with body
data or not); the code itself substitutes the sentinel only on the
parts path and returns the main body's render verbatim, so the invariant
rests on the renderer's output being non-empty. -/
theorem extract_body_ne_empty (fr ph : String → String)
    (hfr : ∀ t, fr t ≠ "") (p : Payload) :
    extract_body fr ph p ≠ "" := by
  unfold extract_body
  cases hb : get_content_from_body fr ph p.body with
  | some content =>
    show content ≠ ""
    unfold get_content_from_body at hb
    cases hd : p.body.data with
    | none => simp [hd] at hb
    | some d =>
      simp only [hd] at hb
      obtain ⟨t, ht⟩ := decode_render_is_rendered fr ph d content hb
      rw [ht]
      exact hfr t
  | none =>
    cases hp : p.parts with
    | some parts =>
      show get_content_from_parts fr ph parts ≠ ""
      exact get_content_aux_ne_empty fr ph hfr (sizeOf parts) parts
        le_rfl "" ""
    | none =>
      show sentinel ≠ ""
      unfold sentinel
      decide

/-- C4 amended, witness: a constant non-empty renderer on the concrete
single-data-node payload. -/
theorem extract_body_ne_empty_witness :
    (∀ t, (fun _ : String => "X") t ≠ "") ∧
    extract_body (fun _ => "X") id c4Payload ≠ "" := by
  have hfr : ∀ t, (fun _ : String => "X") t ≠ "" := by
    intro t
    show ("X" : String) ≠ ""
    decide
  exact ⟨hfr, extract_body_ne_empty (fun _ => "X") id hfr c4Payload⟩

/-- C7: on a payload (without main-body data) holding one text/plain child
with decoded-and-rendered content `a` and one text/html child with
decoded-and-rendered content `b`, both non-empty, `extract_body` returns
the renderer applied to the accumulated html content `b` — content
derived from the html child — and the plain sibling's `a` does not appear
in the result's derivation. -/
theorem html_preferred_over_plain (fr ph : String → String)
    (hdrs : List Header) (mt : Option String) (sz : Option Int)
    (bp bh : MsgBody) (a b : String) (hb : b ≠ "")
    (hpa : get_content_from_body fr ph bp = some a)
    (hhb : get_content_from_body fr ph bh = some b) :
    extract_body fr ph
        ⟨hdrs, some [Part.mk "text/plain" bp none,
          Part.mk "text/html" bh none], ⟨none, sz⟩, mt⟩
      = fr b := by
  have e0 : get_content_from_body fr ph (MsgBody.mk none sz) = none := rfl
  have ea : ("" : String) ++ a = a := string_nil_append a
  have eb : ("" : String) ++ b = b := string_nil_append b
  simp [extract_body, get_content_from_parts, get_content_from_parts_aux,
    e0, hpa, hhb, ea, eb, hb]

/-- C7 witness: renderers instantiated at the identity, the text/plain
child decoding to `A` and the text/html child decoding to `B`. -/
theorem html_preferred_over_plain_witness :
    ("B" : String) ≠ "" ∧
    get_content_from_body id id (MsgBody.mk (some "QQ==") none)
      = some "A" ∧
    get_content_from_body id id (MsgBody.mk (some "Qg==") none)
      = some "B" ∧
    extract_body id id
        ⟨[], some [Part.mk "text/plain" (MsgBody.mk (some "QQ==") none) none,
          Part.mk "text/html" (MsgBody.mk (some "Qg==") none) none],
          ⟨none, none⟩, none⟩
      = id "B" :=
  ⟨by decide, rfl, rfl,
    html_preferred_over_plain id id [] none none
      (MsgBody.mk (some "QQ==") none) (MsgBody.mk (some "Qg==") none)
      "A" "B" (by decide) rfl rfl⟩

/-! ## C8: the base64 decode / re-encode round trip -/

/-- URL-safe-to-standard alphabet translation on one character, the
composite effect of `.replace('-', "+").replace('_', "/")`. -/
def toStd (c : Char) : Char :=
  if c = '-' then '+' else if c = '_' then '/' else c

/-- Standard-to-URL-safe alphabet translation on one character, the
composite effect of `.replace('+', "-").replace('/', "_")`. -/
def toUrl (c : Char) : Char :=
  if c = '+' then '-' else if c = '/' then '_' else c

/-- The two character replacements of `decode_and_render_body` compose to
the pointwise URL-safe-to-standard translation. -/
theorem replace_toStd (l : List Char) :
    rustReplaceChar '_' '/' (rustReplaceChar '-' '+' l) = l.map toStd := by
  unfold rustReplaceChar
  rw [List.map_map]
  apply List.map_congr_left
  intro c _
  show (if (if c = '-' then '+' else c) = '_' then '/'
    else (if c = '-' then '+' else c)) = toStd c
  unfold toStd
  by_cases h1 : c = '-'
  · subst h1; rfl
  · by_cases h2 : c = '_'
    · subst h2; rfl
    · simp [h1, h2]

/-- The reverse replacements compose to the standard-to-URL-safe
translation. -/
theorem replace_toUrl (l : List Char) :
    rustReplaceChar '/' '_' (rustReplaceChar '+' '-' l) = l.map toUrl := by
  unfold rustReplaceChar
  rw [List.map_map]
  apply List.map_congr_left
  intro c _
  show (if (if c = '+' then '-' else c) = '/' then '_'
    else (if c = '+' then '-' else c)) = toUrl c
  unfold toUrl
  by_cases h1 : c = '+'
  · subst h1; rfl
  · by_cases h2 : c = '/'
    · subst h2; rfl
    · simp [h1, h2]

/-- The translation back is a left inverse of the translation out on
characters that are not `+` or `/`. -/
theorem toUrl_toStd (c : Char) (h1 : c ≠ '+') (h2 : c ≠ '/') :
    toUrl (toStd c) = c := by
  unfold toStd toUrl
  by_cases ha : c = '-'
  · subst ha; rfl
  · by_cases hb : c = '_'
    · subst hb; rfl
    · simp [ha, hb, h1, h2]

/-- Translation out maps only `=` to `=`. -/
theorem toStd_eq_pad (c : Char) (h : toStd c = '=') : c = '=' := by
  unfold toStd at h
  by_cases h1 : c = '-'
  · rw [if_pos h1] at h; exact absurd h (by decide)
  · rw [if_neg h1] at h
    by_cases h2 : c = '_'
    · rw [if_pos h2] at h; exact absurd h (by decide)
    · rwa [if_neg h2] at h

/-- A decoded base64 symbol value is below 64 and re-encodes to the same
character. -/
theorem b64CharVal_spec (c : Char) (v : Nat) (h : b64CharVal c = some v) :
    v < 64 ∧ b64Char v = c := by
  unfold b64CharVal at h
  by_cases h1 : 65 ≤ c.toNat ∧ c.toNat ≤ 90
  · rw [if_pos h1] at h
    injection h with hv
    subst hv
    refine ⟨by omega, ?_⟩
    unfold b64Char
    rw [if_pos (by omega : c.toNat - 65 ≤ 25),
      show c.toNat - 65 + 65 = c.toNat by omega, Char.ofNat_toNat]
  · rw [if_neg h1] at h
    by_cases h2 : 97 ≤ c.toNat ∧ c.toNat ≤ 122
    · rw [if_pos h2] at h
      injection h with hv
      subst hv
      refine ⟨by omega, ?_⟩
      unfold b64Char
      rw [if_neg (by omega), if_pos (by omega : c.toNat - 97 + 26 ≤ 51),
        show c.toNat - 97 + 26 - 26 + 97 = c.toNat by omega,
        Char.ofNat_toNat]
    · rw [if_neg h2] at h
      by_cases h3 : 48 ≤ c.toNat ∧ c.toNat ≤ 57
      · rw [if_pos h3] at h
        injection h with hv
        subst hv
        refine ⟨by omega, ?_⟩
        unfold b64Char
        rw [if_neg (by omega), if_neg (by omega),
          if_pos (by omega : c.toNat - 48 + 52 ≤ 61),
          show c.toNat - 48 + 52 - 52 + 48 = c.toNat by omega,
          Char.ofNat_toNat]
      · rw [if_neg h3] at h
        by_cases h4 : c.toNat = 43
        · rw [if_pos h4] at h
          injection h with hv
          subst hv
          refine ⟨by omega, ?_⟩
          have hc := Char.ofNat_toNat c
          rw [h4] at hc
          rw [← hc]
          decide
        · rw [if_neg h4] at h
          by_cases h5 : c.toNat = 47
          · rw [if_pos h5] at h
            injection h with hv
            subst hv
            refine ⟨by omega, ?_⟩
            have hc := Char.ofNat_toNat c
            rw [h5] at hc
            rw [← hc]
            decide
          · rw [if_neg h5] at h
            exact absurd h (by simp)

/-- Decoding a translated block and re-encoding it reproduces the original
characters, translated back: the STANDARD decoder accepts exactly
canonical encodings, so decode followed by encode is the identity on the
accepted strings. Stated over character lists free of `+` and `/`. -/
theorem b64_roundtrip_chars :
    ∀ (l : List Char), (∀ c ∈ l, c ≠ '+' ∧ c ≠ '/') →
      ∀ bs, base64DecodeChars (l.map toStd) = some bs →
        (base64EncodeBytes bs).map toUrl = l
  | [], _, bs, hd => by
    simp only [List.map_nil, base64DecodeChars] at hd
    injection hd with h
    subst h
    rfl
  | [a], _, bs, hd => by simp [base64DecodeChars] at hd
  | [a, b], _, bs, hd => by simp [base64DecodeChars] at hd
  | [a, b, c], _, bs, hd => by simp [base64DecodeChars] at hd
  | a :: b :: c :: d :: rest, hsafe, bs, hd => by
    simp only [List.map_cons] at hd
    simp only [base64DecodeChars] at hd
    cases hva : b64CharVal (toStd a) with
    | none => rw [hva] at hd; simp at hd
    | some va =>
    cases hvb : b64CharVal (toStd b) with
    | none => rw [hva, hvb] at hd; simp at hd
    | some vb =>
    rw [hva, hvb] at hd
    simp only at hd
    obtain ⟨hva64, hca⟩ := b64CharVal_spec _ _ hva
    obtain ⟨hvb64, hcb⟩ := b64CharVal_spec _ _ hvb
    have ha := hsafe a (by simp)
    have hb := hsafe b (by simp)
    by_cases hcpad : toStd c = '='
    · rw [if_pos hcpad] at hd
      by_cases hcnd : toStd d = '=' ∧ List.map toStd rest = [] ∧
          vb % 16 = 0
      · rw [if_pos hcnd] at hd
        obtain ⟨hdpad, hrest, h16⟩ := hcnd
        injection hd with hbs
        subst hbs
        have hrest' : rest = [] := List.map_eq_nil_iff.mp hrest
        subst hrest'
        rw [toStd_eq_pad c hcpad, toStd_eq_pad d hdpad]
        simp only [base64EncodeBytes, List.map_cons, List.map_nil]
        rw [show (va * 4 + vb / 16) / 4 = va by omega,
          show (va * 4 + vb / 16) % 4 * 16 = vb by omega, hca, hcb,
          toUrl_toStd a ha.1 ha.2, toUrl_toStd b hb.1 hb.2]
        rfl
      · rw [if_neg hcnd] at hd
        simp at hd
    · rw [if_neg hcpad] at hd
      cases hvc : b64CharVal (toStd c) with
      | none => rw [hvc] at hd; simp at hd
      | some vc =>
      rw [hvc] at hd
      simp only at hd
      obtain ⟨hvc64, hcc⟩ := b64CharVal_spec _ _ hvc
      have hc := hsafe c (by simp)
      by_cases hdpad : toStd d = '='
      · rw [if_pos hdpad] at hd
        by_cases hcnd : List.map toStd rest = [] ∧ vc % 4 = 0
        · rw [if_pos hcnd] at hd
          obtain ⟨hrest, h4⟩ := hcnd
          injection hd with hbs
          subst hbs
          have hrest' : rest = [] := List.map_eq_nil_iff.mp hrest
          subst hrest'
          rw [toStd_eq_pad d hdpad]
          simp only [base64EncodeBytes, List.map_cons, List.map_nil]
          rw [show (va * 4 + vb / 16) / 4 = va by omega,
            show (va * 4 + vb / 16) % 4 * 16 +
              (vb % 16 * 16 + vc / 4) / 16 = vb by omega,
            show (vb % 16 * 16 + vc / 4) % 16 * 4 = vc by omega,
            hca, hcb, hcc, toUrl_toStd a ha.1 ha.2,
            toUrl_toStd b hb.1 hb.2, toUrl_toStd c hc.1 hc.2]
          rfl
        · rw [if_neg hcnd] at hd
          simp at hd
      · rw [if_neg hdpad] at hd
        cases hvd : b64CharVal (toStd d) with
        | none => rw [hvd] at hd; simp at hd
        | some vd =>
        rw [hvd] at hd
        simp only at hd
        obtain ⟨hvd64, hcd⟩ := b64CharVal_spec _ _ hvd
        have hdc := hsafe d (by simp)
        cases hrec : base64DecodeChars (List.map toStd rest) with
        | none => rw [hrec] at hd; simp at hd
        | some bs' =>
        rw [hrec] at hd
        injection hd with hbs
        subst hbs
        have ih := b64_roundtrip_chars rest
          (fun x hx => hsafe x (by simp [hx])) bs' hrec
        simp only [base64EncodeBytes, List.map_cons]
        rw [show (va * 4 + vb / 16) / 4 = va by omega,
          show (va * 4 + vb / 16) % 4 * 16 +
            (vb % 16 * 16 + vc / 4) / 16 = vb by omega,
          show (vb % 16 * 16 + vc / 4) % 16 * 4 +
            (vc % 4 * 64 + vd) / 64 = vc by omega,
          show (vc % 4 * 64 + vd) % 64 = vd by omega,
          hca, hcb, hcc, hcd, ih, toUrl_toStd a ha.1 ha.2,
          toUrl_toStd b hb.1 hb.2, toUrl_toStd c hc.1 hc.2,
          toUrl_toStd d hdc.1 hdc.2]

/-- A character of the URL-safe base64 alphabet (padding included). -/
def urlSafeB64Char (c : Char) : Bool :=
  (65 ≤ c.toNat && c.toNat ≤ 90) || (97 ≤ c.toNat && c.toNat ≤ 122) ||
  (48 ≤ c.toNat && c.toNat ≤ 57) || c = '-' || c = '_' || c = '='

/-- A URL-safe-alphabet character is neither `+` nor `/`. -/
theorem urlSafe_not_std (c : Char) (h : urlSafeB64Char c = true) :
    c ≠ '+' ∧ c ≠ '/' := by
  constructor
  · intro he; subst he; exact absurd h (by decide)
  · intro he; subst he; exact absurd h (by decide)

/-- C8: for every input string over the URL-safe base64 alphabet that the
decoder accepts, decoding it (after the `-`/`_` to `+`/`/` translation of
`decode_and_render_body`), re-encoding the bytes with the standard
alphabet, and translating `+` to `-` and `/` to `_` reproduces the input
string exactly. -/
theorem urlsafe_decode_reencode_roundtrip (s : String)
    (hs : ∀ c ∈ s.toList, urlSafeB64Char c = true) (bs : List Nat)
    (hd : decodeUrlSafe s = some bs) :
    String.mk (rustReplaceChar '/' '_'
      (rustReplaceChar '+' '-' (base64EncodeBytes bs))) = s := by
  unfold decodeUrlSafe at hd
  rw [replace_toStd] at hd
  rw [replace_toUrl, b64_roundtrip_chars s.toList
    (fun c hc => urlSafe_not_std c (hs c hc)) bs hd]
  rfl

/-- C8 witness: the URL-safe input `--8=` (standard form `++8=`, bytes
`[251, 239]`) decodes and round-trips to itself. -/
theorem urlsafe_decode_reencode_roundtrip_witness :
    (∀ c ∈ ("--8=" : String).toList, urlSafeB64Char c = true) ∧
    decodeUrlSafe "--8=" = some [251, 239] ∧
    String.mk (rustReplaceChar '/' '_' (rustReplaceChar '+' '-'
      (base64EncodeBytes [251, 239]))) = "--8=" :=
  ⟨by decide, by decide,
    urlsafe_decode_reencode_roundtrip "--8=" (by decide) [251, 239]
      (by decide)⟩

end GmailCli
